import Mathlib

/-
Verification development for the git-tree dive loader (load-git.c).

The C code is embedded shallowly: C strings become `List Char`, machine
integers become `Int`/`Nat`, the two global pointers `active_dive` and
`active_trip` become fields of an explicit `GitState` threaded through the
walk, and the external record store (alloc_dive, record_dive,
add_dive_to_trip) is modelled by lists accumulated in that state.
-/

namespace LoadGit

def GIT_WALK_OK : Int := 0

def GIT_WALK_SKIP : Int := 1

/-- C `isspace` on the ASCII whitespace characters. -/
def isSpaceChar (c : Char) : Bool :=
  c = ' ' || c = '\t' || c = '\n' || c = '\x0b' || c = '\x0c' || c = '\r'

/-- Numeric value of an ASCII digit character. -/
def digitVal (c : Char) : Int := (c.toNat : Int) - 48

/-- Accumulating digit scan shared by `atoi` and the `%d` conversions of
`sscanf`: consume leading decimal digits, return the value and the rest. -/
def parseDigits : List Char → Int → Int × List Char
  | [], acc => (acc, [])
  | c :: cs, acc => if c.isDigit then parseDigits cs (acc * 10 + digitVal c) else (acc, c :: cs)

/-- Skip leading C whitespace, as `atoi` and `%d` do. -/
def skipSpaces : List Char → List Char
  | [] => []
  | c :: cs => if isSpaceChar c then skipSpaces cs else c :: cs

/-- Consume an optional sign; returns (negative?, rest). -/
def scanSign (s : List Char) : Bool × List Char :=
  match s with
  | [] => (false, [])
  | c :: cs => if c = '-' then (true, cs) else if c = '+' then (false, cs) else (false, c :: cs)

/-- One `%d` conversion of `sscanf`: optional whitespace, optional sign, at
least one digit; `none` is a matching failure. -/
def scanInt (s : List Char) : Option (Int × List Char) :=
  let s1 := skipSpaces s
  let p := scanSign s1
  match p.2 with
  | [] => none
  | c :: cs =>
    if c.isDigit then
      let r := parseDigits (c :: cs) 0
      some (if p.1 then -r.1 else r.1, r.2)
    else none

/-- C `atoi`: whitespace, optional sign, digits; 0 when no digits. -/
def atoi (s : List Char) : Int :=
  let s1 := skipSpaces s
  let p := scanSign s1
  let r := parseDigits p.2 0
  if p.1 then -r.1 else r.1

/-- `sscanf(s, "%d/%d", &a, &b) == 2`, with the two values on success. -/
def scanf_d_slash_d (s : List Char) : Option (Int × Int) :=
  match scanInt s with
  | none => none
  | some (a, rest) =>
    match rest with
    | [] => none
    | c :: rest2 =>
      if c = '/' then
        match scanInt rest2 with
        | none => none
        | some (b, _) => some (a, b)
      else none

/-- `sscanf(s, "%d:%d:%d", &h, &m, &sec) == 3`, with the values on success. -/
def scanf_time (s : List Char) : Option (Int × Int × Int) :=
  match scanInt s with
  | none => none
  | some (h, rest) =>
    match rest with
    | [] => none
    | c :: rest2 =>
      if c = ':' then
        match scanInt rest2 with
        | none => none
        | some (m, rest3) =>
          match rest3 with
          | [] => none
          | c2 :: rest4 =>
            if c2 = ':' then
              match scanInt rest4 with
              | none => none
              | some (sec, _) => some (h, m, sec)
            else none
      else none

/-- The leading-digit count computed by the `while (isdigit(...))` loop in
`walk_tree_directory`. -/
def countLeadingDigits : List Char → Nat
  | [] => 0
  | c :: cs => if c.isDigit then countLeadingDigits cs + 1 else 0

/-- Length of the string without the unique part (up to a `~`). -/
def nonunique_length : List Char → Nat
  | [] => 0
  | c :: cs => if c = '~' then 0 else nonunique_length cs + 1

/-- `strncmp(s, p, strlen(p)) == 0`: `p` is a leading part of `s`. -/
def strncmp0 : List Char → List Char → Bool
  | [], _ => true
  | _ :: _, [] => false
  | p :: ps, c :: cs => p = c && strncmp0 ps cs

/-- C indexing `name[i]` with an `int` index; all reachable uses are in
bounds, the NUL default mirrors the terminator of a C string. -/
def getCh (name : List Char) (i : Int) : Char :=
  if 0 ≤ i then name.getD i.toNat (Char.ofNat 0) else Char.ofNat 0

/-- Pointer arithmetic `name + i` for nonnegative reachable offsets. -/
def dropAt (name : List Char) (i : Int) : List Char :=
  name.drop i.toNat

def str (s : String) : List Char := s.toList

/-- Days since the Unix epoch of a civil date (proleptic Gregorian); the
standard days-from-civil computation, used on positive years only. -/
def daysFromCivil (y m d : Int) : Int :=
  let y1 := if m ≤ 2 then y - 1 else y
  let era := y1 / 400
  let yoe := y1 - era * 400
  let mp := if 2 < m then m - 3 else m + 9
  let doy := (153 * mp + 2) / 5 + d - 1
  let doe := yoe * 365 + yoe / 4 - yoe / 100 + doy
  era * 146097 + doe - 719468

/-- UTC seconds since the epoch of a civil date and time of day. -/
def utcTimestamp (y m d h mi s : Int) : Int :=
  daysFromCivil y m d * 86400 + h * 3600 + mi * 60 + s

/-- Modelled from the spec: `utc_mktime` is declared in dive.h and
implemented outside this repository. Per the spec all timestamps are UTC
seconds derived from the decoded calendar fields; the implementation
normalizes `tm_year`, accepting both absolute years (as passed by
`create_new_trip`) and years since 1900 (as passed by `dive_directory`),
and `tm_mon` is zero-based. -/
def utc_mktime (tm_year tm_mon tm_mday tm_hour tm_min tm_sec : Int) : Int :=
  let y := if 1900 ≤ tm_year then tm_year else tm_year + 1900
  utcTimestamp y (tm_mon + 1) tm_mday tm_hour tm_min tm_sec

/-- Tags for the diagnostics produced through `report_error` (modelled from
the spec: `report_error` is external, records a diagnostic and returns the
failure status -1). -/
inductive ErrTag where
  | divecomputerRead
  | diveRead
  | tripRead
  | unknownFile
  | branchLookup
  | peelFailed
  | openFailed
deriving DecidableEq, Repr

/-- A registered dive: its timestamp, its optional ordinal number, and the
anchor timestamp of the trip it was attached to (if any) — the record-store
side of `record_dive` / `add_dive_to_trip`. -/
structure DiveRec where
  when : Int
  number : Option Int
  trip : Option Int
deriving DecidableEq, Repr

/-- The mutable state of the traversal: the two globals `active_dive`
(an index into the registered dives) and `active_trip` (the anchor
timestamp of the created trip), plus the externally owned stores of
registered dives, created trips, and reported diagnostics. -/
structure GitState where
  activeDive : Option Nat
  activeTrip : Option Int
  dives : List DiveRec
  trips : List Int
  errors : List ErrTag
deriving DecidableEq, Repr

def emptyState : GitState :=
  { activeDive := none, activeTrip := none, dives := [], trips := [], errors := [] }

def validate_date (yyyy mm dd : Int) : Bool :=
  decide (yyyy > 1970) && decide (yyyy < 3000) &&
    decide (mm > 0) && decide (mm < 13) &&
    decide (dd > 0) && decide (dd < 32)

def validate_time (h m s : Int) : Bool :=
  decide (h ≥ 0) && decide (h < 24) &&
    decide (m ≥ 0) && decide (m < 60) &&
    decide (s ≥ 0) && decide (s ≤ 60)

/-- `create_new_dive`: allocate a dive with the given timestamp, attach it
to the active trip if one is set, register it; returns its index. -/
def create_new_dive (w : Int) (st : GitState) : Nat × GitState :=
  (st.dives.length,
   { st with dives := st.dives ++ [{ when := w, number := none, trip := st.activeTrip }] })

/-- `create_new_trip`: build a trip whose timestamp is midnight of the
given calendar date (note: `tm_year` is set to the absolute year here). -/
def create_new_trip (yyyy mm dd : Int) (st : GitState) : Int × GitState :=
  let w := utc_mktime yyyy (mm - 1) dd 0 0 0
  (w, { st with trips := st.trips ++ [w] })

/-- Dive trip directory, name is nn-alphabetic, optionally with a unique
suffix. -/
def dive_trip_directory (root name : List Char) (st : GitState) : Int × GitState :=
  match scanf_d_slash_d root with
  | none => (GIT_WALK_SKIP, st)
  | some (yyyy, mm) =>
    let dd := atoi name
    if validate_date yyyy mm dd then
      let p := create_new_trip yyyy mm dd st
      (GIT_WALK_OK, { p.2 with activeTrip := some p.1 })
    else (GIT_WALK_SKIP, st)

/-- Dive directory; `timeoff` points at what should be the first digit of
the hour in the name. -/
def dive_directory (root name : List Char) (timeoff : Int) (st : GitState) : Int × GitState :=
  let mday_off := timeoff - 7
  let month_off := mday_off - 3
  let year_off := month_off - 5
  if mday_off < 0 then (GIT_WALK_SKIP, st)
  else if getCh name (timeoff - 1) ≠ '-' then (GIT_WALK_SKIP, st)
  else
    match scanf_time (dropAt name timeoff) with
    | none => (GIT_WALK_SKIP, st)
    | some (h, m, s) =>
      if ¬ validate_time h m s then (GIT_WALK_SKIP, st)
      else
        let st1 := if root.length = 8 then { st with activeTrip := none } else st
        let dd := atoi (dropAt name mday_off)
        let ym : Option (Int × Int) :=
          if year_off < 0 then scanf_d_slash_d root
          else some (atoi (dropAt name year_off), -1)
        match ym with
        | none => (GIT_WALK_SKIP, st1)
        | some (yyyy, mmRoot) =>
          let mm := if 0 ≤ month_off then atoi (dropAt name month_off) else mmRoot
          if validate_date yyyy mm dd then
            let p := create_new_dive (utc_mktime (yyyy - 1900) (mm - 1) dd h m s) st1
            (GIT_WALK_OK, { p.2 with activeDive := some p.1 })
          else (GIT_WALK_SKIP, st1)

/-- Classify a directory node: pure-numeric date component, trip
directory, dive directory, or unrecognized. -/
def walk_tree_directory (root name : List Char) (st : GitState) : Int × GitState :=
  let digits := countLeadingDigits name
  if digits ≠ 4 ∧ digits ≠ 2 then (GIT_WALK_SKIP, st)
  else if digits = name.length then (GIT_WALK_OK, st)
  else
    let c := name.getD digits (Char.ofNat 0)
    if c ≠ '-' then (GIT_WALK_SKIP, st)
    else
      let len := nonunique_length name
      if name.getD (len - 3) (Char.ofNat 0) = ':' then
        dive_directory root name ((len : Int) - 8) st
      else if digits ≠ 2 then (GIT_WALK_SKIP, st)
      else dive_trip_directory root name st

/-- `parse_divecomputer_entry`: read the blob (reported failure if it
cannot be read), then hand it to the external device-data parser. -/
def parse_divecomputer_entry (readable : Bool) (st : GitState) : Int × GitState :=
  if readable then (0, st)
  else (-1, { st with errors := ErrTag.divecomputerRead :: st.errors })

/-- `parse_dive_entry`: read the blob (reported failure if it cannot be
read); when the suffix after the `Dive` part is non-empty, set the active
dive's number to `atoi(suffix+1)`; hand the content to the external dive
parser. -/
def parse_dive_entry (readable : Bool) (suffix : List Char) (st : GitState) : Int × GitState :=
  if readable then
    match suffix with
    | [] => (0, st)
    | _ :: srest =>
      match st.activeDive with
      | none => (0, st)
      | some i =>
        match st.dives[i]? with
        | none => (0, st)
        | some d => (0, { st with dives := st.dives.set i { d with number := some (atoi srest) } })
  else (-1, { st with errors := ErrTag.diveRead :: st.errors })

/-- `parse_trip_entry`: read the blob (reported failure if it cannot be
read), then hand it to the external trip parser. -/
def parse_trip_entry (readable : Bool) (st : GitState) : Int × GitState :=
  if readable then (0, st)
  else (-1, { st with errors := ErrTag.tripRead :: st.errors })

/-- Dispatch a file node by name, consulting the active dive and trip. -/
def walk_tree_file (root name : List Char) (readable : Bool) (st : GitState) : Int × GitState :=
  if st.activeDive.isSome && strncmp0 (str "Divecomputer") name then
    parse_divecomputer_entry readable st
  else if st.activeDive.isSome && strncmp0 (str "Dive") name then
    parse_dive_entry readable (name.drop 4) st
  else if st.activeTrip.isSome && (name = str "00-Trip") then
    parse_trip_entry readable st
  else
    (GIT_WALK_SKIP, { st with errors := ErrTag.unknownFile :: st.errors })

/- A node of the git tree handed to the walker: a subtree or a blob
(whose readable flag models whether git_blob_lookup succeeds). -/
mutual
inductive Entry where
  | tree (name : List Char) (children : EntryList)
  | blob (name : List Char) (readable : Bool)
inductive EntryList where
  | nil
  | cons (e : Entry) (rest : EntryList)
end

/-- The `git_tree_walk` callback: directories are classified (their return
value steers descent), files are dispatched and their result discarded
(failed blob loads are ignored), always returning `GIT_WALK_OK`. -/
def walk_tree_cb (root : List Char) (e : Entry) (st : GitState) : Int × GitState :=
  match e with
  | .tree name _ => walk_tree_directory root name st
  | .blob name readable =>
    let p := walk_tree_file root name readable st
    (GIT_WALK_OK, p.2)

/- The pre-order walk of git_tree_walk with GIT_TREEWALK_PRE: each
entry is passed to the callback with the slash-terminated path of its
parent; a subtree is descended into exactly when the callback returns 0
(a positive return skips the subtree; a negative return would abort the
whole walk, and walk_tree_cb provably never returns a negative value). -/
mutual
def walkEntry (root : List Char) (e : Entry) (st : GitState) : GitState :=
  match e with
  | .tree name children =>
    let p := walk_tree_cb root (.tree name children) st
    if p.1 = GIT_WALK_OK then walkEntryList (root ++ name ++ ['/']) children p.2 else p.2
  | .blob name readable => (walk_tree_cb root (.blob name readable) st).2

def walkEntryList (root : List Char) (es : EntryList) (st : GitState) : GitState :=
  match es with
  | .nil => st
  | .cons e rest => walkEntryList root rest (walkEntry root e st)
end

/-- `load_dives_from_tree`: walk the whole tree from the empty root path
and unconditionally report success. -/
def load_dives_from_tree (tree : EntryList) (st : GitState) : Int × GitState :=
  (0, walkEntryList [] tree st)

/-- Outcome of resolving a branch inside an opened repository: the branch
lookup may fail, peeling the reference to a tree may fail, or the root
tree is obtained. -/
inductive BranchResolution where
  | lookupFails
  | peelFails (tree : EntryList)
  | resolved (tree : EntryList)

/-- `do_git_load`: resolve the branch to its root tree and walk it; each
resolution failure is reported and returns the failure status. -/
def do_git_load (b : BranchResolution) (st : GitState) : Int × GitState :=
  match b with
  | .lookupFails => (-1, { st with errors := ErrTag.branchLookup :: st.errors })
  | .peelFails _ => (-1, { st with errors := ErrTag.peelFailed :: st.errors })
  | .resolved tree => load_dives_from_tree tree st

/-- Outcome of `git_repository_open` on the location parsed out of the
`git` descriptor string (the string munging itself only selects which
repository and branch are opened and is abstracted into this outcome). -/
inductive RepoOpen where
  | fails
  | opens (b : BranchResolution)

/-- `git_load_dives`: open the repository (reported failure if it cannot
be opened) and load the dives from the requested branch. -/
def git_load_dives (r : RepoOpen) (st : GitState) : Int × GitState :=
  match r with
  | .fails => (-1, { st with errors := ErrTag.openFailed :: st.errors })
  | .opens b => do_git_load b st

/-- A state in which a trip is active, as left behind by a visit to a
valid trip directory. -/
def stWithTrip : GitState :=
  { activeDive := none, activeTrip := some 7777, dives := [], trips := [7777], errors := [] }

/-- A state in which a dive is active, as left behind by a visit to a
valid dive directory. -/
def stWithDive : GitState :=
  { activeDive := some 0, activeTrip := none,
    dives := [{ when := 0, number := none, trip := none }], trips := [], errors := [] }

/-- The ASCII digit character with value `n` (`n < 10` in all uses). -/
def dig (n : Nat) : Char := Char.ofNat (48 + n)

/-- Two-digit decimal rendering, as in the MM, DD and time fields of the
naming grammar. -/
def pad2 (n : Nat) : List Char := [dig (n / 10), dig (n % 10)]

/-- Four-digit decimal rendering, as in the YYYY fields of the naming
grammar. -/
def pad4 (n : Nat) : List Char :=
  [dig (n / 1000), dig (n / 100 % 10), dig (n / 10 % 10), dig (n % 10)]

/-- The head of the list, if any, is not a digit: the digit scanners stop
in front of such a list. -/
def noLeadDigit : List Char → Prop
  | [] => True
  | c :: _ => c.isDigit = false

/-- A record directory name of shape `YYYY-MM-DD-SSS-HH:MM:SS` with
explicit year and month, rendered digit by digit (`a b c` are the three
characters of the free-form SSS tag). -/
def recordNameYM (y3 y2 y1 y0 m1 m0 d1 d0 : Nat) (a b c : Char)
    (h1 h0 i1 i0 s1 s0 : Nat) : List Char :=
  dig y3 :: dig y2 :: dig y1 :: dig y0 :: '-' :: dig m1 :: dig m0 :: '-' ::
    dig d1 :: dig d0 :: '-' :: a :: b :: c :: '-' ::
    dig h1 :: dig h0 :: ':' :: dig i1 :: dig i0 :: ':' :: dig s1 :: dig s0 :: []

/-- A record directory name of shape `DD-SSS-HH:MM:SS` omitting year and
month, rendered digit by digit. -/
def recordNameD (d1 d0 : Nat) (a b c : Char) (h1 h0 i1 i0 s1 s0 : Nat) : List Char :=
  dig d1 :: dig d0 :: '-' :: a :: b :: c :: '-' ::
    dig h1 :: dig h0 :: ':' :: dig i1 :: dig i0 :: ':' :: dig s1 :: dig s0 :: []

/-- Simulation relation for re-walking: `st` runs ahead of a reference
state by fixed prefixes of registered dives, created trips and reported
diagnostics, with equal tracker values (the active-dive index shifted by
the number of pre-existing dives). -/
def Sim (db : List DiveRec) (tb : List Int) (eb : List ErrTag) (st st1 : GitState) : Prop :=
  st.dives = db ++ st1.dives ∧ st.trips = tb ++ st1.trips ∧ st.errors = st1.errors ++ eb ∧
  st.activeTrip = st1.activeTrip ∧
  st.activeDive = st1.activeDive.map fun i => i + db.length

/-- A tree on which re-walking with the leftover tracker state differs
from the first walk: the record directory sits under an extra numeric
level (prefix `2023/07/07/`, length 11, so the depth-8 reset does not
fire) and is visited before the trip directory of the same month. -/
def cexTree : EntryList :=
  EntryList.cons
    (Entry.tree (str "2023")
      (EntryList.cons
        (Entry.tree (str "07")
          (EntryList.cons
            (Entry.tree (str "07")
              (EntryList.cons (Entry.tree (str "15-001-10:30:00") EntryList.nil)
                EntryList.nil))
            (EntryList.cons (Entry.tree (str "13-trip") EntryList.nil) EntryList.nil)))
        EntryList.nil))
    EntryList.nil

/-! Helper lemmas about the decoding primitives. -/

theorem dig_isDigit (n : Nat) (h : n < 10) : (dig n).isDigit = true := by
  interval_cases n <;> decide

theorem digitVal_dig (n : Nat) (h : n < 10) : digitVal (dig n) = (n : Int) := by
  interval_cases n <;> decide

theorem dig_not_space (n : Nat) (h : n < 10) : isSpaceChar (dig n) = false := by
  interval_cases n <;> decide

theorem dig_ne (n : Nat) (h : n < 10) (c : Char) (hc : c.isDigit = false) : ¬ dig n = c := by
  intro he
  have hd := dig_isDigit n h
  rw [he, hc] at hd
  cases hd

theorem isAlpha_not_digit (c : Char) (h : c.isAlpha = true) : c.isDigit = false := by
  by_contra hc
  rw [Bool.not_eq_false] at hc
  simp only [Char.isAlpha, Char.isUpper, Char.isLower, Char.isDigit, Bool.or_eq_true,
    Bool.and_eq_true, decide_eq_true_eq, UInt32.le_def, BitVec.le_def] at h hc
  rcases h with ⟨h1, _⟩ | ⟨h1, _⟩ <;> exact absurd (le_trans h1 hc.2) (by decide)

theorem isAlpha_ne (c : Char) (h : c.isAlpha = true) (x : Char) (hx : x.isAlpha = false) :
    ¬ c = x := by
  intro he
  rw [he, hx] at h
  cases h

theorem skipSpaces_cons (c : Char) (l : List Char) (h : isSpaceChar c = false) :
    skipSpaces (c :: l) = c :: l := by
  simp [skipSpaces, h]

theorem scanSign_cons (c : Char) (l : List Char) (h1 : ¬ c = '-') (h2 : ¬ c = '+') :
    scanSign (c :: l) = (false, c :: l) := by
  simp [scanSign, h1, h2]

theorem parseDigits_cons_digit (c : Char) (h : c.isDigit = true) (l : List Char) (acc : Int) :
    parseDigits (c :: l) acc = parseDigits l (acc * 10 + digitVal c) := by
  simp [parseDigits, h]

theorem parseDigits_stop (l : List Char) (h : noLeadDigit l) (acc : Int) :
    parseDigits l acc = (acc, l) := by
  cases l with
  | nil => rfl
  | cons c cs =>
    have hc : c.isDigit = false := h
    simp [parseDigits, hc]

theorem scanInt_digits2 (a b : Nat) (ha : a < 10) (hb : b < 10) (rest : List Char)
    (h : noLeadDigit rest) :
    scanInt (dig a :: dig b :: rest) = some (((10 * a + b : Nat) : Int), rest) := by
  have k1 := dig_isDigit a ha
  have k2 := dig_isDigit b hb
  simp only [scanInt, skipSpaces_cons _ _ (dig_not_space a ha),
    scanSign_cons _ _ (dig_ne a ha '-' (by decide)) (dig_ne a ha '+' (by decide)), k1,
    parseDigits_cons_digit _ k1, parseDigits_cons_digit _ k2, parseDigits_stop rest h,
    digitVal_dig a ha, digitVal_dig b hb, reduceIte]
  have hv : ((0 : Int) * 10 + (a : Int)) * 10 + (b : Int) = ((10 * a + b : Nat) : Int) := by
    push_cast
    ring
  rw [hv]
  simp

theorem scanInt_digits4 (a b c d : Nat) (ha : a < 10) (hb : b < 10) (hc : c < 10)
    (hd : d < 10) (rest : List Char) (h : noLeadDigit rest) :
    scanInt (dig a :: dig b :: dig c :: dig d :: rest) =
      some (((1000 * a + 100 * b + 10 * c + d : Nat) : Int), rest) := by
  have k1 := dig_isDigit a ha
  have k2 := dig_isDigit b hb
  have k3 := dig_isDigit c hc
  have k4 := dig_isDigit d hd
  simp only [scanInt, skipSpaces_cons _ _ (dig_not_space a ha),
    scanSign_cons _ _ (dig_ne a ha '-' (by decide)) (dig_ne a ha '+' (by decide)), k1,
    parseDigits_cons_digit _ k1, parseDigits_cons_digit _ k2, parseDigits_cons_digit _ k3,
    parseDigits_cons_digit _ k4, parseDigits_stop rest h, digitVal_dig a ha,
    digitVal_dig b hb, digitVal_dig c hc, digitVal_dig d hd, reduceIte]
  have hv : ((((0 : Int) * 10 + (a : Int)) * 10 + (b : Int)) * 10 + (c : Int)) * 10 + (d : Int) =
      ((1000 * a + 100 * b + 10 * c + d : Nat) : Int) := by
    push_cast
    ring
  rw [hv]
  simp

theorem atoi_digits2 (a b : Nat) (ha : a < 10) (hb : b < 10) (rest : List Char)
    (h : noLeadDigit rest) :
    atoi (dig a :: dig b :: rest) = ((10 * a + b : Nat) : Int) := by
  have k1 := dig_isDigit a ha
  have k2 := dig_isDigit b hb
  simp only [atoi, skipSpaces_cons _ _ (dig_not_space a ha),
    scanSign_cons _ _ (dig_ne a ha '-' (by decide)) (dig_ne a ha '+' (by decide)),
    parseDigits_cons_digit _ k1, parseDigits_cons_digit _ k2, parseDigits_stop rest h,
    digitVal_dig a ha, digitVal_dig b hb, reduceIte]
  have hv : ((0 : Int) * 10 + (a : Int)) * 10 + (b : Int) = ((10 * a + b : Nat) : Int) := by
    push_cast
    ring
  rw [hv]
  simp

theorem atoi_digits4 (a b c d : Nat) (ha : a < 10) (hb : b < 10) (hc : c < 10) (hd : d < 10)
    (rest : List Char) (h : noLeadDigit rest) :
    atoi (dig a :: dig b :: dig c :: dig d :: rest) =
      ((1000 * a + 100 * b + 10 * c + d : Nat) : Int) := by
  have k1 := dig_isDigit a ha
  have k2 := dig_isDigit b hb
  have k3 := dig_isDigit c hc
  have k4 := dig_isDigit d hd
  simp only [atoi, skipSpaces_cons _ _ (dig_not_space a ha),
    scanSign_cons _ _ (dig_ne a ha '-' (by decide)) (dig_ne a ha '+' (by decide)),
    parseDigits_cons_digit _ k1, parseDigits_cons_digit _ k2, parseDigits_cons_digit _ k3,
    parseDigits_cons_digit _ k4, parseDigits_stop rest h, digitVal_dig a ha,
    digitVal_dig b hb, digitVal_dig c hc, digitVal_dig d hd, reduceIte]
  have hv : ((((0 : Int) * 10 + (a : Int)) * 10 + (b : Int)) * 10 + (c : Int)) * 10 + (d : Int) =
      ((1000 * a + 100 * b + 10 * c + d : Nat) : Int) := by
    push_cast
    ring
  rw [hv]
  simp

/-- Parsing a rendered `YYYY/MM/` path prefix with `sscanf "%d/%d"`
recovers the year and the month. -/
theorem scanf_root (y m : Nat) (hy : y < 10000) (hm : m < 100) :
    scanf_d_slash_d (pad4 y ++ '/' :: pad2 m ++ ['/']) = some ((y : Int), (m : Int)) := by
  have h1 : scanInt (pad4 y ++ '/' :: pad2 m ++ ['/']) =
      some (((1000 * (y / 1000) + 100 * (y / 100 % 10) + 10 * (y / 10 % 10) + y % 10 : Nat) :
        Int), '/' :: pad2 m ++ ['/']) :=
    scanInt_digits4 (y / 1000) (y / 100 % 10) (y / 10 % 10) (y % 10) (by omega) (by omega)
      (by omega) (by omega) ('/' :: pad2 m ++ ['/']) (show ('/').isDigit = false by decide)
  have h2 : scanInt (pad2 m ++ ['/']) =
      some (((10 * (m / 10) + m % 10 : Nat) : Int), ['/']) :=
    scanInt_digits2 (m / 10) (m % 10) (by omega) (by omega) ['/']
      (show ('/').isDigit = false by decide)
  have hy2 : (1000 * (y / 1000) + 100 * (y / 100 % 10) + 10 * (y / 10 % 10) + y % 10 : Nat) =
      y := by omega
  have hm2 : (10 * (m / 10) + m % 10 : Nat) = m := by omega
  rw [hy2] at h1
  rw [hm2] at h2
  simp only [scanf_d_slash_d, pad4, pad2, List.cons_append, List.nil_append] at h1 h2 ⊢
  rw [h1]
  simp only [reduceIte]
  rw [h2]

/-- Parsing a rendered `HH:MM:SS` time tail with `sscanf "%d:%d:%d"`
recovers the three fields. -/
theorem scanf_time_digits (a b c d e f : Nat) (ha : a < 10) (hb : b < 10) (hc : c < 10)
    (hd : d < 10) (he : e < 10) (hf : f < 10) (rest : List Char) (h : noLeadDigit rest) :
    scanf_time (dig a :: dig b :: ':' :: dig c :: dig d :: ':' :: dig e :: dig f :: rest) =
      some (((10 * a + b : Nat) : Int), ((10 * c + d : Nat) : Int), ((10 * e + f : Nat) : Int)) := by
  have h1 := scanInt_digits2 a b ha hb (':' :: dig c :: dig d :: ':' :: dig e :: dig f :: rest)
    (show (':').isDigit = false by decide)
  have h2 := scanInt_digits2 c d hc hd (':' :: dig e :: dig f :: rest)
    (show (':').isDigit = false by decide)
  have h3 := scanInt_digits2 e f he hf rest h
  simp only [scanf_time, h1, h2, h3, reduceIte]

theorem nonunique_length_eq_length (l : List Char) (h : ∀ c ∈ l, ¬ c = '~') :
    nonunique_length l = l.length := by
  induction l with
  | nil => rfl
  | cons c cs ih =>
    simp [nonunique_length, h c (by simp), ih fun x hx => h x (by simp [hx])]

theorem getD_ne_of_all (l : List Char) (x d : Char) (h : ∀ c ∈ l, ¬ c = x) (hd : ¬ d = x)
    (i : Nat) : ¬ l.getD i d = x := by
  rw [List.getD_eq_getElem?_getD]
  cases hc : l[i]? with
  | none => simpa using hd
  | some c => simpa using h c (List.getElem?_mem hc)

/-- `utc_mktime` on an absolute year with the zero-based month of a
`struct tm`. -/
theorem utc_mktime_abs (y m d h mi s : Int) (hy : 1900 ≤ y) :
    utc_mktime y (m - 1) d h mi s = utcTimestamp y m d h mi s := by
  simp only [utc_mktime, if_pos hy]
  have hm : m - 1 + 1 = m := by ring
  rw [hm]

/-- `utc_mktime` on a year counted from 1900 with the zero-based month of
a `struct tm`. -/
theorem utc_mktime_rel (y m d h mi s : Int) (hy : y < 1900) :
    utc_mktime y (m - 1) d h mi s = utcTimestamp (y + 1900) m d h mi s := by
  simp only [utc_mktime, if_neg (by omega : ¬ 1900 ≤ y)]
  have hm : m - 1 + 1 = m := by ring
  rw [hm]

theorem strncmp0_nil (s : List Char) : strncmp0 [] s = true := rfl

theorem strncmp0_append (a p s : List Char) :
    strncmp0 (a ++ p) (a ++ s) = strncmp0 p s := by
  induction a with
  | nil => rfl
  | cons c cs ih => simp [strncmp0, ih]

theorem countLeadingDigits_of_all_digits (l : List Char) (h : ∀ c ∈ l, c.isDigit = true) :
    countLeadingDigits l = l.length := by
  induction l with
  | nil => rfl
  | cons c cs ih =>
    have hc : c.isDigit = true := h c (by simp)
    simp [countLeadingDigits, hc, ih fun x hx => h x (by simp [hx])]

theorem GIT_WALK_OK_ne_SKIP : GIT_WALK_OK ≠ GIT_WALK_SKIP := by decide

theorem skip_pair_ne_ok {a b : GitState} (h : (GIT_WALK_SKIP, a) = (GIT_WALK_OK, b)) : False := by
  have h1 : GIT_WALK_SKIP = GIT_WALK_OK := congrArg Prod.fst h
  exact absurd h1 (by decide)

theorem ok_pair_ne_skip {a b : GitState} (h : (GIT_WALK_OK, a) = (GIT_WALK_SKIP, b)) : False := by
  have h1 : GIT_WALK_OK = GIT_WALK_SKIP := congrArg Prod.fst h
  exact absurd h1 (by decide)

/-! C5: the exact bounds of the date and time validators. -/

/-- C5: `validate_date` accepts exactly years strictly between 1970 and
3000, months 1 through 12 and days 1 through 31; `validate_time` accepts
exactly hours 0-23, minutes 0-59 and seconds 0-60, so second 60 (the
leap-second allowance) is accepted while `10:30:61` and `24:00:00` are
rejected, and a directory node carrying such a time is skipped with no
record created and no state change. -/
theorem validator_bounds_exact :
    (∀ y m d : Int, validate_date y m d = true ↔
      (1970 < y ∧ y < 3000 ∧ 1 ≤ m ∧ m ≤ 12 ∧ 1 ≤ d ∧ d ≤ 31)) ∧
    (∀ h mi s : Int, validate_time h mi s = true ↔
      (0 ≤ h ∧ h ≤ 23 ∧ 0 ≤ mi ∧ mi ≤ 59 ∧ 0 ≤ s ∧ s ≤ 60)) ∧
    validate_time 10 30 60 = true ∧
    validate_time 10 30 61 = false ∧
    validate_time 24 0 0 = false ∧
    (∀ st, walk_tree_directory (str "2023/07/") (str "15-001-10:30:61") st = (GIT_WALK_SKIP, st)) ∧
    (∀ st, walk_tree_directory (str "2023/07/") (str "15-001-24:00:00") st = (GIT_WALK_SKIP, st)) := by
  refine ⟨?_, ?_, by decide, by decide, by decide, fun st => rfl, fun st => rfl⟩
  · intro y m d
    simp only [validate_date, Bool.and_eq_true, decide_eq_true_eq]
    omega
  · intro h mi s
    simp only [validate_time, Bool.and_eq_true, decide_eq_true_eq]
    omega

/-- Witness for C5: the boundary values evaluated concretely through the
theorem. -/
theorem validator_bounds_exact_witness :
    validate_date 1971 1 31 = true ∧ validate_time 0 0 60 = true :=
  ⟨(validator_bounds_exact.1 1971 1 31).mpr (by decide),
   (validator_bounds_exact.2.1 0 0 60).mpr (by decide)⟩

/-! C7: the trichotomy of the directory classifier. -/

/-- C7: a directory name that is all digits of length exactly 2 or 4 is
transparent (descend, no state change); a name whose leading digit count
is neither 2 nor 4, or whose digits are followed by a character other than
a dash, is rejected with no descent and no state change; and a name
starting with 4 digits and a dash whose de-suffixed tail lacks the colon
at position length-3 is also rejected — in particular it is never treated
as a group directory. -/
theorem walk_tree_directory_classification :
    (∀ root name st, (∀ c ∈ name, c.isDigit = true) → (name.length = 2 ∨ name.length = 4) →
      walk_tree_directory root name st = (GIT_WALK_OK, st)) ∧
    (∀ root name st, countLeadingDigits name ≠ 2 → countLeadingDigits name ≠ 4 →
      walk_tree_directory root name st = (GIT_WALK_SKIP, st)) ∧
    (∀ root name st, (countLeadingDigits name = 2 ∨ countLeadingDigits name = 4) →
      countLeadingDigits name < name.length →
      name.getD (countLeadingDigits name) (Char.ofNat 0) ≠ '-' →
      walk_tree_directory root name st = (GIT_WALK_SKIP, st)) ∧
    (∀ root name st, countLeadingDigits name = 4 →
      name.getD 4 (Char.ofNat 0) = '-' →
      name.getD (nonunique_length name - 3) (Char.ofNat 0) ≠ ':' →
      walk_tree_directory root name st = (GIT_WALK_SKIP, st)) := by
  refine ⟨?_, ?_, ?_, ?_⟩
  · intro root name st hall hlen
    have hd : countLeadingDigits name = name.length := countLeadingDigits_of_all_digits name hall
    simp only [walk_tree_directory, hd]
    rw [if_neg (by omega)]
    simp
  · intro root name st h2 h4
    simp only [walk_tree_directory]
    rw [if_pos ⟨h4, h2⟩]
  · intro root name st h24 hlt hdash
    simp only [walk_tree_directory]
    rw [if_neg (by omega), if_neg (by omega), if_pos hdash]
  · intro root name st h4 hdash hcolon
    simp only [walk_tree_directory, h4]
    have hlen : name.length ≠ 4 := by
      intro hlen
      rw [List.getD_eq_default _ _ (by omega)] at hdash
      exact absurd hdash (by decide)
    rw [if_neg (by omega), if_neg (by omega), if_neg (by simpa using hdash),
      if_neg hcolon, if_pos (by omega)]

/-- Witness for C7: the four cases exercised concretely through the
theorem. -/
theorem walk_tree_directory_classification_witness :
    walk_tree_directory (str "") (str "2023") stWithTrip = (GIT_WALK_OK, stWithTrip) ∧
    walk_tree_directory (str "") (str "202") stWithTrip = (GIT_WALK_SKIP, stWithTrip) ∧
    walk_tree_directory (str "") (str "20x") stWithTrip = (GIT_WALK_SKIP, stWithTrip) ∧
    walk_tree_directory (str "") (str "2023-pics") stWithTrip = (GIT_WALK_SKIP, stWithTrip) :=
  ⟨walk_tree_directory_classification.1 _ _ _ (by decide) (by decide),
   walk_tree_directory_classification.2.1 _ _ _ (by decide) (by decide),
   walk_tree_directory_classification.2.2.1 _ _ _ (by decide) (by decide) (by decide),
   walk_tree_directory_classification.2.2.2 _ _ _ (by decide) (by decide) (by decide)⟩

/-! C10: necessary shape of an accepted record directory name. -/

/-- C10: whenever a directory visit is accepted and registers a dive, the
de-suffixed name length L is at least 15 and the character at de-suffixed
position L-9 (immediately before the 8-character time field) is a dash;
conversely a candidate whose de-suffixed length is below 15 or whose
character at L-9 is not a dash is rejected by the record decoder with no
state change. -/
theorem record_directory_shape :
    (∀ root name st st1,
      walk_tree_directory root name st = (GIT_WALK_OK, st1) → st1.dives ≠ st.dives →
      15 ≤ nonunique_length name ∧
      getCh name ((nonunique_length name : Int) - 9) = '-') ∧
    (∀ root name st,
      (nonunique_length name < 15 ∨ getCh name ((nonunique_length name : Int) - 9) ≠ '-') →
      dive_directory root name ((nonunique_length name : Int) - 8) st = (GIT_WALK_SKIP, st)) := by
  constructor
  · intro root name st st1 hok hdiff
    simp only [walk_tree_directory] at hok
    split at hok
    · exact (skip_pair_ne_ok hok).elim
    · split at hok
      · cases hok
        exact absurd rfl hdiff
      · split at hok
        · exact (skip_pair_ne_ok hok).elim
        · split at hok
          · -- the dive-directory route
            simp only [dive_directory] at hok
            split at hok
            · exact (skip_pair_ne_ok hok).elim
            · split at hok
              · exact (skip_pair_ne_ok hok).elim
              · rename_i hm hdash
                constructor
                · omega
                · have heq : (nonunique_length name : Int) - 8 - 1 =
                      (nonunique_length name : Int) - 9 := by omega
                  rw [heq] at hdash
                  simpa using hdash
          · split at hok
            · exact (skip_pair_ne_ok hok).elim
            · -- the trip route leaves the dive list unchanged
              simp only [dive_trip_directory] at hok
              split at hok
              · exact (skip_pair_ne_ok hok).elim
              · split at hok
                · cases hok
                  exact (hdiff (by simp [create_new_trip])).elim
                · exact (skip_pair_ne_ok hok).elim
  · intro root name st h
    simp only [dive_directory]
    rcases h with h | h
    · rw [if_pos (by omega)]
    · by_cases hm : (nonunique_length name : Int) - 8 - 7 < 0
      · rw [if_pos hm]
      · rw [if_neg hm, if_pos ?_]
        have heq : (nonunique_length name : Int) - 8 - 1 =
            (nonunique_length name : Int) - 9 := by omega
        rw [heq]
        exact h

/-- Witness for C10: both directions exercised concretely through the
theorem. -/
theorem record_directory_shape_witness :
    (15 ≤ nonunique_length (str "15-001-10:30:00") ∧
      getCh (str "15-001-10:30:00") ((nonunique_length (str "15-001-10:30:00") : Int) - 9) = '-') ∧
    dive_directory (str "2023/07/") (str "10:30:00")
        ((nonunique_length (str "10:30:00") : Int) - 8) emptyState =
      (GIT_WALK_SKIP, emptyState) :=
  ⟨record_directory_shape.1 (str "2023/07/") (str "15-001-10:30:00") emptyState _ (by rfl)
      (by decide),
   record_directory_shape.2 (str "2023/07/") (str "10:30:00") emptyState (by decide)⟩

/-! C3: a record directory at path-prefix depth 8 resets the active group. -/

/-- C3: every validated record directory visited with an accumulated path
prefix of exactly 8 characters resets the active group to empty before the
record is constructed, so the new record carries no group membership (it
does not inherit a previously active trip). -/
theorem record_at_depth8_resets_group :
    ∀ root name timeoff st st1, root.length = 8 →
      dive_directory root name timeoff st = (GIT_WALK_OK, st1) →
      st1.activeTrip = none ∧
      ∃ w, st1.dives = st.dives ++ [{ when := w, number := none, trip := none }] ∧
        st1.activeDive = some st.dives.length ∧
        st1.trips = st.trips ∧ st1.errors = st.errors := by
  intro root name timeoff st st1 hroot hok
  simp only [dive_directory, hroot, reduceIte] at hok
  repeat' split at hok
  any_goals exact (skip_pair_ne_ok hok).elim
  all_goals cases hok
  all_goals exact ⟨rfl, _, rfl, rfl, rfl, rfl⟩

/-- Witness for C3: the spec's scenario — a record directory that is a
depth-8 sibling visited while a trip is still active (as after a
`2023/07/13-trip` subtree) produces a record with no group membership. -/
theorem record_at_depth8_resets_group_witness :
    ((dive_directory (str "2023/07/") (str "20-002-09:00:00") 7 stWithTrip).2).activeTrip = none ∧
    ∃ w, ((dive_directory (str "2023/07/") (str "20-002-09:00:00") 7 stWithTrip).2).dives =
        stWithTrip.dives ++ [{ when := w, number := none, trip := none }] ∧
      ((dive_directory (str "2023/07/") (str "20-002-09:00:00") 7 stWithTrip).2).activeDive =
        some stWithTrip.dives.length ∧
      ((dive_directory (str "2023/07/") (str "20-002-09:00:00") 7 stWithTrip).2).trips =
        stWithTrip.trips ∧
      ((dive_directory (str "2023/07/") (str "20-002-09:00:00") 7 stWithTrip).2).errors =
        stWithTrip.errors :=
  record_at_depth8_resets_group (str "2023/07/") (str "20-002-09:00:00") 7 stWithTrip _
    (by decide) (by rfl)

/-! C2: state mutation on validation failure. The claim as stated is
refuted: a directory whose time fields validate but whose date fields fail
validation still resets the active group when the path prefix length is
exactly 8, because the reset happens before the date is decoded. -/

/-- Counterexample to C2: visiting `32-001-10:30:00` (day 32, so date
validation fails) under the depth-8 prefix `2023/07/` while a trip is
active is rejected, yet the active group slot is mutated from `some 7777`
to `none`. -/
theorem date_failure_mutates_cex :
    (walk_tree_directory (str "2023/07/") (str "32-001-10:30:00") stWithTrip).1 =
      GIT_WALK_SKIP ∧
    stWithTrip.activeTrip = some 7777 ∧
    (walk_tree_directory (str "2023/07/") (str "32-001-10:30:00") stWithTrip).2.activeTrip =
      none := by
  exact ⟨rfl, rfl, rfl⟩

/-- C2 amended: a directory node whose decoded time fields fail validation
is rejected with no state mutation at all; a node whose date fields fail
validation (or fail to decode) is rejected with no new record, and no
change to the active record, the registered dives, the trips or the
diagnostics, but the active group may have been reset to empty, which
happens exactly when the path prefix length is 8; a rejected directory is
not descended into. -/
theorem dive_directory_skip_state :
    (∀ root name timeoff st st1,
      dive_directory root name timeoff st = (GIT_WALK_SKIP, st1) →
      st1.dives = st.dives ∧ st1.activeDive = st.activeDive ∧ st1.trips = st.trips ∧
        st1.errors = st.errors ∧
        (st1.activeTrip = st.activeTrip ∨ (root.length = 8 ∧ st1.activeTrip = none))) ∧
    (∀ root name timeoff st h m s,
      scanf_time (dropAt name timeoff) = some (h, m, s) → validate_time h m s = false →
      dive_directory root name timeoff st = (GIT_WALK_SKIP, st)) ∧
    (∀ root name children rest st,
      (walk_tree_directory root name st).1 = GIT_WALK_SKIP →
      walkEntryList root (EntryList.cons (Entry.tree name children) rest) st =
        walkEntryList root rest (walk_tree_directory root name st).2) := by
  refine ⟨?_, ?_, ?_⟩
  · intro root name timeoff st st1 hsk
    by_cases hr : root.length = 8
    · simp only [dive_directory, hr, reduceIte] at hsk
      repeat' split at hsk
      any_goals exact (ok_pair_ne_skip hsk).elim
      all_goals cases hsk
      all_goals first
        | exact ⟨rfl, rfl, rfl, rfl, Or.inl rfl⟩
        | exact ⟨rfl, rfl, rfl, rfl, Or.inr ⟨hr, rfl⟩⟩
    · simp only [dive_directory, if_neg hr] at hsk
      repeat' split at hsk
      any_goals exact (ok_pair_ne_skip hsk).elim
      all_goals cases hsk
      all_goals exact ⟨rfl, rfl, rfl, rfl, Or.inl rfl⟩
  · intro root name timeoff st h m s hscan hval
    simp only [dive_directory]
    split
    · rfl
    · split
      · rfl
      · rw [hscan]
        simp only [hval]
        rw [if_pos (by decide)]
  · intro root name children rest st hsk
    have hne : (walk_tree_directory root name st).1 ≠ GIT_WALK_OK := by
      rw [hsk]; decide
    simp only [walkEntryList, walkEntry, walk_tree_cb]
    rw [if_neg hne]

/-- Witness for C2 amended: the three parts exercised concretely through
the theorem. -/
theorem dive_directory_skip_state_witness :
    ((dive_directory (str "2023/07/") (str "32-001-10:30:00") 7 stWithTrip).2.dives =
       stWithTrip.dives ∧
     (dive_directory (str "2023/07/") (str "32-001-10:30:00") 7 stWithTrip).2.activeDive =
       stWithTrip.activeDive ∧
     (dive_directory (str "2023/07/") (str "32-001-10:30:00") 7 stWithTrip).2.trips =
       stWithTrip.trips ∧
     (dive_directory (str "2023/07/") (str "32-001-10:30:00") 7 stWithTrip).2.errors =
       stWithTrip.errors ∧
     ((dive_directory (str "2023/07/") (str "32-001-10:30:00") 7 stWithTrip).2.activeTrip =
         stWithTrip.activeTrip ∨
       ((str "2023/07/").length = 8 ∧
        (dive_directory (str "2023/07/") (str "32-001-10:30:00") 7 stWithTrip).2.activeTrip =
          none))) ∧
    dive_directory (str "2023/07/") (str "15-001-10:30:61") 7 stWithTrip =
      (GIT_WALK_SKIP, stWithTrip) ∧
    walkEntryList (str "") (EntryList.cons (Entry.tree (str "bad") EntryList.nil) EntryList.nil)
        emptyState =
      walkEntryList (str "") EntryList.nil (walk_tree_directory (str "") (str "bad") emptyState).2 :=
  ⟨dive_directory_skip_state.1 (str "2023/07/") (str "32-001-10:30:00") 7 stWithTrip _ (by rfl),
   dive_directory_skip_state.2.1 (str "2023/07/") (str "15-001-10:30:61") 7 stWithTrip
     10 30 61 (by rfl) (by rfl),
   dive_directory_skip_state.2.2 (str "") (str "bad") EntryList.nil EntryList.nil emptyState
     (by rfl)⟩

/-! C1: the ordinal taken from a `Dive` file's suffix. The claim as stated
is refuted: the code sets the number to `atoi(suffix+1)`, skipping the
first character of the suffix, so `Dive5` yields ordinal 0, not 5. -/

/-- Counterexample to C1: with an active record, the readable file `Dive5`
sets the record's ordinal to 0 (the numeric value of the suffix with its
first character skipped), not to 5. -/
theorem dive5_ordinal_cex :
    ((walk_tree_file (str "") (str "Dive5") true stWithDive).2.dives.map DiveRec.number =
      [some 0]) ∧
    ((walk_tree_file (str "") (str "Dive5") true stWithDive).2.dives.map DiveRec.number ≠
      [some 5]) := by
  exact ⟨by decide, by decide⟩

/-- C1 amended: for a readable file named `Dive` followed by a non-empty
suffix not beginning with `computer`, visited with an active record, the
dispatcher sets that record's ordinal to `atoi` of the suffix with its
first character skipped (so `Dive-5` yields 5 while `Dive5` yields 0); for
a file named exactly `Dive` the record's ordinal is left unset. -/
theorem dive_entry_suffix :
    (∀ root suffix st i d, st.activeDive = some i → st.dives[i]? = some d →
      strncmp0 (str "computer") suffix = false → suffix ≠ [] →
      walk_tree_file root (str "Dive" ++ suffix) true st =
        (0, { st with dives :=
          st.dives.set i { d with number := some (atoi (suffix.drop 1)) } })) ∧
    (∀ root st i, st.activeDive = some i →
      walk_tree_file root (str "Dive") true st = (0, st)) := by
  constructor
  · intro root suffix st i d hAD hGet hComp hNe
    have h1 : strncmp0 (str "Divecomputer") (str "Dive" ++ suffix) = false := by
      have he : str "Divecomputer" = str "Dive" ++ str "computer" := by decide
      rw [he, strncmp0_append, hComp]
    have h2 : strncmp0 (str "Dive") (str "Dive" ++ suffix) = true := by
      have he : strncmp0 (str "Dive" ++ []) (str "Dive" ++ suffix) = strncmp0 [] suffix :=
        strncmp0_append (str "Dive") [] suffix
      simpa using he
    obtain ⟨c, srest, rfl⟩ := List.exists_cons_of_ne_nil hNe
    simp only [walk_tree_file, hAD, h1, h2, Option.isSome_some, Bool.and_false, Bool.and_true,
      Bool.false_eq_true, reduceIte]
    have h3 : (str "Dive" ++ c :: srest).drop 4 = c :: srest := rfl
    rw [h3]
    simp only [parse_dive_entry, hAD, hGet, reduceIte]
    rfl
  · intro root st i hAD
    simp only [walk_tree_file, hAD, Option.isSome_some, Bool.and_true, Bool.and_false,
      Bool.false_eq_true, reduceIte]
    have h1 : strncmp0 (str "Divecomputer") (str "Dive") = false := by decide
    have h2 : strncmp0 (str "Dive") (str "Dive") = true := by decide
    rw [h1, h2]
    simp only [Bool.and_false, Bool.and_true, Bool.false_eq_true, reduceIte]
    rfl

/-- Witness for C1 amended: `Dive-5` sets the active record's ordinal to
5, `Dive` leaves the record untouched. -/
theorem dive_entry_suffix_witness :
    walk_tree_file (str "") (str "Dive" ++ str "-5") true stWithDive =
      (0, { stWithDive with dives :=
        stWithDive.dives.set 0 { when := 0, number := some 5, trip := none } }) ∧
    walk_tree_file (str "") (str "Dive") true stWithDive = (0, stWithDive) :=
  ⟨dive_entry_suffix.1 (str "") (str "-5") stWithDive 0
      { when := 0, number := none, trip := none } rfl rfl (by decide) (by decide),
   dive_entry_suffix.2 (str "") stWithDive 0 rfl⟩

/-! C6: a trip directory under a `YYYY/MM/` prefix creates the group and
makes it active. -/

/-- C6: for every group directory of shape `DD-<alpha...>` (two digits, a
dash, alphabetic characters) visited under a rendered `YYYY/MM/` path
prefix with a valid date, a group anchored at midnight UTC of that
calendar date is created and becomes the active group; the dives, the
active record and the diagnostics are untouched. -/
theorem trip_directory_creates_group :
    ∀ (y m d1 d0 : Nat) (rest : List Char) (st : GitState),
      validate_date (y : Int) (m : Int) ((10 * d1 + d0 : Nat) : Int) = true →
      d1 < 10 → d0 < 10 → m < 100 →
      (∀ c ∈ rest, c.isAlpha = true) →
      walk_tree_directory (pad4 y ++ '/' :: pad2 m ++ ['/'])
          (dig d1 :: dig d0 :: '-' :: rest) st =
        (GIT_WALK_OK,
          { st with
            trips := st.trips ++
              [utcTimestamp (y : Int) (m : Int) ((10 * d1 + d0 : Nat) : Int) 0 0 0],
            activeTrip :=
              some (utcTimestamp (y : Int) (m : Int) ((10 * d1 + d0 : Nat) : Int) 0 0 0) }) := by
  intro y m d1 d0 rest st hval h1 h0 hm halpha
  have hbounds := hval
  simp only [validate_date, Bool.and_eq_true, decide_eq_true_eq] at hbounds
  obtain ⟨⟨⟨⟨⟨hy1, hy2⟩, _⟩, _⟩, _⟩, _⟩ := hbounds
  have hy4 : y < 10000 := by omega
  have hyge : 1900 ≤ (y : Int) := by omega
  have hname : ∀ c ∈ (dig d1 :: dig d0 :: '-' :: rest), ¬ c = '~' ∧ ¬ c = ':' := by
    intro c hcm
    simp only [List.mem_cons] at hcm
    rcases hcm with rfl | rfl | rfl | hcm
    · exact ⟨dig_ne d1 h1 '~' (by decide), dig_ne d1 h1 ':' (by decide)⟩
    · exact ⟨dig_ne d0 h0 '~' (by decide), dig_ne d0 h0 ':' (by decide)⟩
    · exact ⟨by decide, by decide⟩
    · exact ⟨isAlpha_ne c (halpha c hcm) '~' (by decide),
        isAlpha_ne c (halpha c hcm) ':' (by decide)⟩
  have hcnt : countLeadingDigits (dig d1 :: dig d0 :: '-' :: rest) = 2 := by
    simp [countLeadingDigits, dig_isDigit d1 h1, dig_isDigit d0 h0,
      show ('-').isDigit = false by decide]
  have hlen : nonunique_length (dig d1 :: dig d0 :: '-' :: rest) =
      (dig d1 :: dig d0 :: '-' :: rest).length :=
    nonunique_length_eq_length _ fun c hc => (hname c hc).1
  have hcol : ¬ (dig d1 :: dig d0 :: '-' :: rest).getD
      (nonunique_length (dig d1 :: dig d0 :: '-' :: rest) - 3) (Char.ofNat 0) = ':' :=
    getD_ne_of_all _ ':' _ (fun c hc => (hname c hc).2) (by decide) _
  have hdash : (dig d1 :: dig d0 :: '-' :: rest).getD 2 (Char.ofNat 0) = '-' := rfl
  simp only [walk_tree_directory, hcnt]
  rw [if_neg (by omega), if_neg (by simp), if_neg (by simp [hdash]), if_neg hcol,
    if_neg (by omega)]
  have hatoi : atoi (dig d1 :: dig d0 :: '-' :: rest) = ((10 * d1 + d0 : Nat) : Int) :=
    atoi_digits2 d1 d0 h1 h0 ('-' :: rest) (show ('-').isDigit = false by decide)
  simp only [dive_trip_directory, scanf_root y m hy4 hm, hatoi, hval, reduceIte,
    create_new_trip, utc_mktime_abs (y : Int) (m : Int) _ 0 0 0 hyge]

/-- Witness for C6: the spec's example, `13-someTrip` under `2023/07/`,
yields a group anchored at midnight UTC of 2023-07-13 and makes it the
active group. -/
theorem trip_directory_creates_group_witness :
    walk_tree_directory (pad4 2023 ++ '/' :: pad2 7 ++ ['/'])
        (dig 1 :: dig 3 :: '-' :: str "someTrip") emptyState =
      (GIT_WALK_OK,
        { emptyState with
          trips := [utcTimestamp 2023 7 13 0 0 0],
          activeTrip := some (utcTimestamp 2023 7 13 0 0 0) }) :=
  trip_directory_creates_group 2023 7 1 3 (str "someTrip") emptyState (by decide) (by decide)
    (by decide) (by decide) (by decide)

/-! C4: the decoded record fields equal the literal fields of the name,
with year and month inherited from the path prefix when omitted. -/

/-- C4: for every valid record directory name with explicit year and month
the decoded timestamp equals the literal fields of the name regardless of
the path prefix (the prefix influences only the group membership, through
the depth-8 reset); and for a record directory name omitting year and
month visited under a rendered `YYYY/MM/` prefix, the decoded year and
month are inherited from the prefix. -/
theorem record_directory_decodes_fields :
    (∀ (y3 y2 y1 y0 m1 m0 d1 d0 h1 h0 i1 i0 s1 s0 : Nat) (a b c : Char)
        (root : List Char) (st : GitState),
      y3 < 10 → y2 < 10 → y1 < 10 → y0 < 10 → m1 < 10 → m0 < 10 → d1 < 10 → d0 < 10 →
      h1 < 10 → h0 < 10 → i1 < 10 → i0 < 10 → s1 < 10 → s0 < 10 →
      ¬ a = '~' → ¬ b = '~' → ¬ c = '~' →
      validate_date ((1000 * y3 + 100 * y2 + 10 * y1 + y0 : Nat) : Int)
        ((10 * m1 + m0 : Nat) : Int) ((10 * d1 + d0 : Nat) : Int) = true →
      validate_time ((10 * h1 + h0 : Nat) : Int) ((10 * i1 + i0 : Nat) : Int)
        ((10 * s1 + s0 : Nat) : Int) = true →
      walk_tree_directory root
          (recordNameYM y3 y2 y1 y0 m1 m0 d1 d0 a b c h1 h0 i1 i0 s1 s0) st =
        (GIT_WALK_OK,
          { st with
            activeDive := some st.dives.length,
            activeTrip := if root.length = 8 then none else st.activeTrip,
            dives := st.dives ++
              [{ when :=
                  utcTimestamp ((1000 * y3 + 100 * y2 + 10 * y1 + y0 : Nat) : Int)
                    ((10 * m1 + m0 : Nat) : Int) ((10 * d1 + d0 : Nat) : Int)
                    ((10 * h1 + h0 : Nat) : Int) ((10 * i1 + i0 : Nat) : Int)
                    ((10 * s1 + s0 : Nat) : Int),
                 number := none,
                 trip := if root.length = 8 then none else st.activeTrip }] })) ∧
    (∀ (d1 d0 h1 h0 i1 i0 s1 s0 : Nat) (a b c : Char) (yy mm : Nat) (st : GitState),
      d1 < 10 → d0 < 10 → h1 < 10 → h0 < 10 → i1 < 10 → i0 < 10 → s1 < 10 → s0 < 10 →
      ¬ a = '~' → ¬ b = '~' → ¬ c = '~' →
      validate_date ((yy : Nat) : Int) ((mm : Nat) : Int) ((10 * d1 + d0 : Nat) : Int) = true →
      validate_time ((10 * h1 + h0 : Nat) : Int) ((10 * i1 + i0 : Nat) : Int)
        ((10 * s1 + s0 : Nat) : Int) = true →
      walk_tree_directory (pad4 yy ++ '/' :: pad2 mm ++ ['/'])
          (recordNameD d1 d0 a b c h1 h0 i1 i0 s1 s0) st =
        (GIT_WALK_OK,
          { st with
            activeDive := some st.dives.length,
            activeTrip := none,
            dives := st.dives ++
              [{ when :=
                  utcTimestamp ((yy : Nat) : Int) ((mm : Nat) : Int)
                    ((10 * d1 + d0 : Nat) : Int) ((10 * h1 + h0 : Nat) : Int)
                    ((10 * i1 + i0 : Nat) : Int) ((10 * s1 + s0 : Nat) : Int),
                 number := none, trip := none }] })) := by
  constructor
  · intro y3 y2 y1 y0 m1 m0 d1 d0 h1 h0 i1 i0 s1 s0 a b c root st
    intro hy3 hy2 hy1 hy0 hm1 hm0 hd1 hd0 hh1 hh0 hi1 hi0 hs1 hs0 hta htb htc hvd hvt
    have hbounds := hvd
    simp only [validate_date, Bool.and_eq_true, decide_eq_true_eq] at hbounds
    obtain ⟨⟨⟨⟨⟨hY1, hY2⟩, _⟩, _⟩, _⟩, _⟩ := hbounds
    have hcnt : countLeadingDigits
        (recordNameYM y3 y2 y1 y0 m1 m0 d1 d0 a b c h1 h0 i1 i0 s1 s0) = 4 := by
      simp [recordNameYM, countLeadingDigits, dig_isDigit _ hy3, dig_isDigit _ hy2,
        dig_isDigit _ hy1, dig_isDigit _ hy0, show ('-').isDigit = false by decide]
    have hnl : nonunique_length
        (recordNameYM y3 y2 y1 y0 m1 m0 d1 d0 a b c h1 h0 i1 i0 s1 s0) = 23 := by
      simp [recordNameYM, nonunique_length, dig_ne _ hy3 '~' (by decide),
        dig_ne _ hy2 '~' (by decide), dig_ne _ hy1 '~' (by decide),
        dig_ne _ hy0 '~' (by decide), dig_ne _ hm1 '~' (by decide),
        dig_ne _ hm0 '~' (by decide), dig_ne _ hd1 '~' (by decide),
        dig_ne _ hd0 '~' (by decide), dig_ne _ hh1 '~' (by decide),
        dig_ne _ hh0 '~' (by decide), dig_ne _ hi1 '~' (by decide),
        dig_ne _ hi0 '~' (by decide), dig_ne _ hs1 '~' (by decide),
        dig_ne _ hs0 '~' (by decide), hta, htb, htc,
        show ¬ '-' = '~' by decide, show ¬ ':' = '~' by decide]
    have hlen23 : (recordNameYM y3 y2 y1 y0 m1 m0 d1 d0 a b c h1 h0 i1 i0 s1 s0).length =
        23 := by
      simp [recordNameYM]
    have hdash4 : (recordNameYM y3 y2 y1 y0 m1 m0 d1 d0 a b c h1 h0 i1 i0 s1 s0).getD 4
        (Char.ofNat 0) = '-' := rfl
    have hcolon : (recordNameYM y3 y2 y1 y0 m1 m0 d1 d0 a b c h1 h0 i1 i0 s1 s0).getD
        (nonunique_length (recordNameYM y3 y2 y1 y0 m1 m0 d1 d0 a b c h1 h0 i1 i0 s1 s0) - 3)
        (Char.ofNat 0) = ':' := by
      rw [hnl]
      rfl
    have htoff : ((nonunique_length
        (recordNameYM y3 y2 y1 y0 m1 m0 d1 d0 a b c h1 h0 i1 i0 s1 s0) : Nat) : Int) - 8 =
        15 := by
      rw [hnl]
      decide
    simp only [walk_tree_directory, hcnt, hlen23]
    rw [if_neg (by omega), if_neg (by omega), if_neg fun hne => hne hdash4, if_pos hcolon, htoff]
    have hdropT : dropAt (recordNameYM y3 y2 y1 y0 m1 m0 d1 d0 a b c h1 h0 i1 i0 s1 s0) 15 =
        dig h1 :: dig h0 :: ':' :: dig i1 :: dig i0 :: ':' :: dig s1 :: dig s0 :: [] := rfl
    have hgetc : getCh (recordNameYM y3 y2 y1 y0 m1 m0 d1 d0 a b c h1 h0 i1 i0 s1 s0) 14 =
        '-' := rfl
    have hdropD : dropAt (recordNameYM y3 y2 y1 y0 m1 m0 d1 d0 a b c h1 h0 i1 i0 s1 s0) 8 =
        dig d1 :: dig d0 :: '-' :: a :: b :: c :: '-' ::
          dig h1 :: dig h0 :: ':' :: dig i1 :: dig i0 :: ':' :: dig s1 :: dig s0 :: [] := rfl
    have hdropM : dropAt (recordNameYM y3 y2 y1 y0 m1 m0 d1 d0 a b c h1 h0 i1 i0 s1 s0) 5 =
        dig m1 :: dig m0 :: '-' :: dig d1 :: dig d0 :: '-' :: a :: b :: c ::
          '-' :: dig h1 :: dig h0 :: ':' :: dig i1 :: dig i0 :: ':' ::
          dig s1 :: dig s0 :: [] := rfl
    have hdropY : dropAt (recordNameYM y3 y2 y1 y0 m1 m0 d1 d0 a b c h1 h0 i1 i0 s1 s0) 0 =
        recordNameYM y3 y2 y1 y0 m1 m0 d1 d0 a b c h1 h0 i1 i0 s1 s0 := rfl
    have hyrel : ((1000 * y3 + 100 * y2 + 10 * y1 + y0 : Nat) : Int) - 1900 < 1900 := by
      omega
    have hyfix : ((1000 * y3 + 100 * y2 + 10 * y1 + y0 : Nat) : Int) - 1900 + 1900 =
        ((1000 * y3 + 100 * y2 + 10 * y1 + y0 : Nat) : Int) := by
      ring
    have hatoiY : atoi (recordNameYM y3 y2 y1 y0 m1 m0 d1 d0 a b c h1 h0 i1 i0 s1 s0) =
        ((1000 * y3 + 100 * y2 + 10 * y1 + y0 : Nat) : Int) :=
      atoi_digits4 y3 y2 y1 y0 hy3 hy2 hy1 hy0
        ('-' :: dig m1 :: dig m0 :: '-' :: dig d1 :: dig d0 :: '-' :: a :: b :: c :: '-' ::
          dig h1 :: dig h0 :: ':' :: dig i1 :: dig i0 :: ':' :: dig s1 :: dig s0 :: [])
        (show ('-').isDigit = false by decide)
    by_cases hr8 : root.length = 8 <;>
      simp only [dive_directory, hr8, reduceIte, Int.reduceSub, Int.reduceNeg, Int.reduceLT,
        Int.reduceLE, ne_eq, hgetc, hdropT, hdropD, hdropM, hdropY, hatoiY,
        scanf_time_digits h1 h0 i1 i0 s1 s0 hh1 hh0 hi1 hi0 hs1 hs0 [] trivial,
        atoi_digits2 m1 m0 hm1 hm0
          ('-' :: dig d1 :: dig d0 :: '-' :: a :: b :: c :: '-' :: dig h1 :: dig h0 :: ':' ::
            dig i1 :: dig i0 :: ':' :: dig s1 :: dig s0 :: [])
          (show ('-').isDigit = false by decide),
        atoi_digits2 d1 d0 hd1 hd0
          ('-' :: a :: b :: c :: '-' :: dig h1 :: dig h0 :: ':' :: dig i1 :: dig i0 :: ':' ::
            dig s1 :: dig s0 :: [])
          (show ('-').isDigit = false by decide),
        hvt, hvd, utc_mktime_rel _ _ _ _ _ _ hyrel, hyfix, create_new_dive] <;>
      simp
  · intro d1 d0 h1 h0 i1 i0 s1 s0 a b c yy mm st
    intro hd1 hd0 hh1 hh0 hi1 hi0 hs1 hs0 hta htb htc hvd hvt
    have hbounds := hvd
    simp only [validate_date, Bool.and_eq_true, decide_eq_true_eq] at hbounds
    obtain ⟨⟨⟨⟨⟨hY1, hY2⟩, hM1⟩, hM2⟩, _⟩, _⟩ := hbounds
    have hy4 : yy < 10000 := by omega
    have hm2 : mm < 100 := by omega
    have hcnt : countLeadingDigits (recordNameD d1 d0 a b c h1 h0 i1 i0 s1 s0) = 2 := by
      simp [recordNameD, countLeadingDigits, dig_isDigit _ hd1, dig_isDigit _ hd0,
        show ('-').isDigit = false by decide]
    have hnl : nonunique_length (recordNameD d1 d0 a b c h1 h0 i1 i0 s1 s0) = 15 := by
      simp [recordNameD, nonunique_length, dig_ne _ hd1 '~' (by decide),
        dig_ne _ hd0 '~' (by decide), dig_ne _ hh1 '~' (by decide),
        dig_ne _ hh0 '~' (by decide), dig_ne _ hi1 '~' (by decide),
        dig_ne _ hi0 '~' (by decide), dig_ne _ hs1 '~' (by decide),
        dig_ne _ hs0 '~' (by decide), hta, htb, htc,
        show ¬ '-' = '~' by decide, show ¬ ':' = '~' by decide]
    have hlen15 : (recordNameD d1 d0 a b c h1 h0 i1 i0 s1 s0).length = 15 := by
      simp [recordNameD]
    have hdash2 : (recordNameD d1 d0 a b c h1 h0 i1 i0 s1 s0).getD 2 (Char.ofNat 0) =
        '-' := rfl
    have hcolon : (recordNameD d1 d0 a b c h1 h0 i1 i0 s1 s0).getD
        (nonunique_length (recordNameD d1 d0 a b c h1 h0 i1 i0 s1 s0) - 3)
        (Char.ofNat 0) = ':' := by
      rw [hnl]
      rfl
    have htoff : ((nonunique_length (recordNameD d1 d0 a b c h1 h0 i1 i0 s1 s0) : Nat) :
        Int) - 8 = 7 := by
      rw [hnl]
      decide
    simp only [walk_tree_directory, hcnt, hlen15]
    rw [if_neg (by omega), if_neg (by omega), if_neg fun hne => hne hdash2, if_pos hcolon, htoff]
    have hdropT : dropAt (recordNameD d1 d0 a b c h1 h0 i1 i0 s1 s0) 7 =
        dig h1 :: dig h0 :: ':' :: dig i1 :: dig i0 :: ':' :: dig s1 :: dig s0 :: [] := rfl
    have hgetc : getCh (recordNameD d1 d0 a b c h1 h0 i1 i0 s1 s0) 6 = '-' := rfl
    have hdropD : dropAt (recordNameD d1 d0 a b c h1 h0 i1 i0 s1 s0) 0 =
        recordNameD d1 d0 a b c h1 h0 i1 i0 s1 s0 := rfl
    have hroot8 : (pad4 yy ++ '/' :: pad2 mm ++ ['/']).length = 8 := rfl
    have hyrel : ((yy : Nat) : Int) - 1900 < 1900 := by omega
    have hyfix : ((yy : Nat) : Int) - 1900 + 1900 = ((yy : Nat) : Int) := by ring
    have hatoiD : atoi (recordNameD d1 d0 a b c h1 h0 i1 i0 s1 s0) =
        ((10 * d1 + d0 : Nat) : Int) :=
      atoi_digits2 d1 d0 hd1 hd0
        ('-' :: a :: b :: c :: '-' :: dig h1 :: dig h0 :: ':' :: dig i1 :: dig i0 :: ':' ::
          dig s1 :: dig s0 :: [])
        (show ('-').isDigit = false by decide)
    simp only [dive_directory, hroot8, reduceIte, Int.reduceSub, Int.reduceNeg, Int.reduceLT,
      Int.reduceLE, ne_eq, hgetc, hdropT, hdropD, hatoiD,
      scanf_time_digits h1 h0 i1 i0 s1 s0 hh1 hh0 hi1 hi0 hs1 hs0 [] trivial,
      scanf_root yy mm hy4 hm2,
      hvt, hvd, utc_mktime_rel _ _ _ _ _ _ hyrel, hyfix, create_new_dive]
    simp

/-- Witness for C4: `2023-07-15-001-10:30:00` decodes to its literal
fields under an unrelated root, and `15-001-10:30:00` under `2023/07/`
inherits year 2023 and month 7. -/
theorem record_directory_decodes_fields_witness :
    walk_tree_directory (str "x/")
        (recordNameYM 2 0 2 3 0 7 1 5 '0' '0' '1' 1 0 3 0 0 0) emptyState =
      (GIT_WALK_OK,
        { emptyState with
          activeDive := some 0,
          activeTrip := none,
          dives := [{ when := utcTimestamp 2023 7 15 10 30 0, number := none,
                      trip := none }] }) ∧
    walk_tree_directory (pad4 2023 ++ '/' :: pad2 7 ++ ['/'])
        (recordNameD 1 5 '0' '0' '1' 1 0 3 0 0 0) emptyState =
      (GIT_WALK_OK,
        { emptyState with
          activeDive := some 0,
          activeTrip := none,
          dives := [{ when := utcTimestamp 2023 7 15 10 30 0, number := none,
                      trip := none }] }) := by
  constructor
  · have h := record_directory_decodes_fields.1 2 0 2 3 0 7 1 5 1 0 3 0 0 0 '0' '0' '1'
      (str "x/") emptyState (by decide) (by decide) (by decide) (by decide) (by decide)
      (by decide) (by decide) (by decide) (by decide) (by decide) (by decide) (by decide)
      (by decide) (by decide) (by decide) (by decide) (by decide) (by decide) (by decide)
    simpa using h
  · have h := record_directory_decodes_fields.2 1 5 1 0 3 0 0 0 '0' '0' '1' 2023 7
      emptyState (by decide) (by decide) (by decide) (by decide) (by decide) (by decide)
      (by decide) (by decide) (by decide) (by decide) (by decide) (by decide) (by decide)
    simpa using h

/-! C8: file-dispatch failures never stop the traversal; fatal resolution
failures abort the load with a failure status and no rollback. -/

theorem dive_directory_fst (root name : List Char) (timeoff : Int) (st : GitState) :
    (dive_directory root name timeoff st).1 = GIT_WALK_OK ∨
    (dive_directory root name timeoff st).1 = GIT_WALK_SKIP := by
  simp only [dive_directory]
  repeat' split
  all_goals simp

theorem dive_trip_directory_fst (root name : List Char) (st : GitState) :
    (dive_trip_directory root name st).1 = GIT_WALK_OK ∨
    (dive_trip_directory root name st).1 = GIT_WALK_SKIP := by
  simp only [dive_trip_directory]
  repeat' split
  all_goals simp

theorem walk_tree_directory_fst (root name : List Char) (st : GitState) :
    (walk_tree_directory root name st).1 = GIT_WALK_OK ∨
    (walk_tree_directory root name st).1 = GIT_WALK_SKIP := by
  simp only [walk_tree_directory]
  repeat' split
  · simp
  · simp
  · simp
  · exact dive_directory_fst _ _ _ _
  · simp
  · exact dive_trip_directory_fst _ _ _

/-- C8: dispatching a file node always yields `GIT_WALK_OK` to the tree
walker regardless of the dispatch or blob-read outcome, so the walk
continues with the next sibling; the callback never returns a negative
value, so the underlying `git_tree_walk` is never aborted; and a fatal
resolution failure (repository cannot be opened, branch cannot be looked
up, or its reference cannot be peeled to a tree) is reported and makes the
load return a failure status while leaving the already registered dives
and trips exactly as they were. -/
theorem file_failures_never_stop_walk :
    (∀ root name readable st rest,
      (walk_tree_cb root (Entry.blob name readable) st).1 = GIT_WALK_OK ∧
      walkEntryList root (EntryList.cons (Entry.blob name readable) rest) st =
        walkEntryList root rest (walk_tree_file root name readable st).2) ∧
    (∀ root e st, 0 ≤ (walk_tree_cb root e st).1) ∧
    (∀ st, (do_git_load BranchResolution.lookupFails st).1 = -1 ∧
      (do_git_load BranchResolution.lookupFails st).2.dives = st.dives ∧
      (do_git_load BranchResolution.lookupFails st).2.trips = st.trips ∧
      (do_git_load BranchResolution.lookupFails st).2.errors =
        ErrTag.branchLookup :: st.errors) ∧
    (∀ tree st, (do_git_load (BranchResolution.peelFails tree) st).1 = -1 ∧
      (do_git_load (BranchResolution.peelFails tree) st).2.dives = st.dives ∧
      (do_git_load (BranchResolution.peelFails tree) st).2.trips = st.trips ∧
      (do_git_load (BranchResolution.peelFails tree) st).2.errors =
        ErrTag.peelFailed :: st.errors) ∧
    (∀ st, (git_load_dives RepoOpen.fails st).1 = -1 ∧
      (git_load_dives RepoOpen.fails st).2.dives = st.dives ∧
      (git_load_dives RepoOpen.fails st).2.trips = st.trips ∧
      (git_load_dives RepoOpen.fails st).2.errors = ErrTag.openFailed :: st.errors) := by
  refine ⟨?_, ?_, ?_, ?_, ?_⟩
  · intro root name readable st rest
    exact ⟨rfl, rfl⟩
  · intro root e st
    cases e with
    | tree name children =>
      rcases walk_tree_directory_fst root name st with h | h <;>
        simp [walk_tree_cb, h, GIT_WALK_OK, GIT_WALK_SKIP]
    | blob name readable => simp [walk_tree_cb, GIT_WALK_OK]
  · intro st
    exact ⟨rfl, rfl, rfl, rfl⟩
  · intro tree st
    exact ⟨rfl, rfl, rfl, rfl⟩
  · intro st
    exact ⟨rfl, rfl, rfl, rfl⟩

/-! C9: re-walking. The claim as stated is refuted: with the tracker state
left behind by the first walk, a record directory whose path prefix does
not have length 8 inherits the stale active group. With the tracker
cleared, re-walking appends an identical set of dives and trips. -/

theorem set_append_right {α : Type} (l₁ l₂ : List α) (i : Nat) (a : α) :
    (l₁ ++ l₂).set (l₁.length + i) a = l₁ ++ l₂.set i a := by
  induction l₁ with
  | nil => simp
  | cons x xs ih => simpa [List.set, Nat.succ_add] using ih

theorem getElem?_append_right_add {α : Type} (l₁ l₂ : List α) (i : Nat) :
    (l₁ ++ l₂)[l₁.length + i]? = l₂[i]? := by
  induction l₁ with
  | nil => simp
  | cons x xs ih => simpa [Nat.succ_add] using ih

theorem Sim_create_dive (db : List DiveRec) (tb : List Int) (eb : List ErrTag)
    (st st1 : GitState) (w : Int) (h : Sim db tb eb st st1) :
    Sim db tb eb { (create_new_dive w st).2 with activeDive := some (create_new_dive w st).1 }
      { (create_new_dive w st1).2 with activeDive := some (create_new_dive w st1).1 } := by
  obtain ⟨h1, h2, h3, h4, h5⟩ := h
  refine ⟨?_, h2, h3, h4, ?_⟩
  · simp [create_new_dive, h1, h4]
  · simp [create_new_dive, h1]
    omega

theorem Sim_reset (db : List DiveRec) (tb : List Int) (eb : List ErrTag)
    (st st1 : GitState) (h : Sim db tb eb st st1) :
    Sim db tb eb { st with activeTrip := none } { st1 with activeTrip := none } := by
  obtain ⟨h1, h2, h3, h4, h5⟩ := h
  exact ⟨h1, h2, h3, rfl, h5⟩

theorem dive_directory_sim (root name : List Char) (timeoff : Int)
    (db : List DiveRec) (tb : List Int) (eb : List ErrTag) (st st1 : GitState)
    (h : Sim db tb eb st st1) :
    (dive_directory root name timeoff st).1 = (dive_directory root name timeoff st1).1 ∧
    Sim db tb eb (dive_directory root name timeoff st).2
      (dive_directory root name timeoff st1).2 := by
  have hres : Sim db tb eb (if root.length = 8 then { st with activeTrip := none } else st)
      (if root.length = 8 then { st1 with activeTrip := none } else st1) := by
    by_cases hr : root.length = 8
    · simpa [hr] using Sim_reset db tb eb st st1 h
    · simpa [hr] using h
  by_cases hmd : timeoff - 7 < 0
  · simp only [dive_directory, if_pos hmd]
    exact ⟨by first | rfl | trivial, h⟩
  by_cases hdash : getCh name (timeoff - 1) ≠ '-'
  · simp only [dive_directory, if_neg hmd, if_pos hdash]
    exact ⟨by first | rfl | trivial, h⟩
  rcases hscan : scanf_time (dropAt name timeoff) with _ | ⟨hh, mm, ss⟩
  · simp only [dive_directory, if_neg hmd, if_neg hdash, hscan]
    exact ⟨by first | rfl | trivial, h⟩
  by_cases hvt : validate_time hh mm ss
  case neg =>
    simp only [dive_directory, if_neg hmd, if_neg hdash, hscan, if_pos hvt]
    exact ⟨by first | rfl | trivial, h⟩
  case pos =>
    rcases hym : (if timeoff - 7 - 3 - 5 < 0 then scanf_d_slash_d root
        else some (atoi (dropAt name (timeoff - 7 - 3 - 5)), -1)) with _ | ⟨yyyy, mmr⟩
    · simp only [dive_directory, if_neg hmd, if_neg hdash, hscan, if_neg (show ¬¬(validate_time hh mm ss = true) from fun hn => hn hvt),
        hym]
      exact ⟨by first | rfl | trivial, hres⟩
    · by_cases hvd : validate_date yyyy
        (if 0 ≤ timeoff - 7 - 3 then atoi (dropAt name (timeoff - 7 - 3)) else mmr)
        (atoi (dropAt name (timeoff - 7)))
      · simp only [dive_directory, if_neg hmd, if_neg hdash, hscan, if_neg (show ¬¬(validate_time hh mm ss = true) from fun hn => hn hvt),
          hym, if_pos hvd]
        exact ⟨by first | rfl | trivial, Sim_create_dive db tb eb _ _ _ hres⟩
      · simp only [dive_directory, if_neg hmd, if_neg hdash, hscan, if_neg (show ¬¬(validate_time hh mm ss = true) from fun hn => hn hvt),
          hym, if_neg hvd]
        exact ⟨by first | rfl | trivial, hres⟩

theorem dive_trip_directory_sim (root name : List Char)
    (db : List DiveRec) (tb : List Int) (eb : List ErrTag) (st st1 : GitState)
    (h : Sim db tb eb st st1) :
    (dive_trip_directory root name st).1 = (dive_trip_directory root name st1).1 ∧
    Sim db tb eb (dive_trip_directory root name st).2 (dive_trip_directory root name st1).2 := by
  obtain ⟨h1, h2, h3, h4, h5⟩ := h
  rcases hroot : scanf_d_slash_d root with _ | ⟨yyyy, mmr⟩
  · simp only [dive_trip_directory, hroot]
    exact ⟨by first | rfl | trivial, h1, h2, h3, h4, h5⟩
  by_cases hvd : validate_date yyyy mmr (atoi name)
  · simp only [dive_trip_directory, hroot, if_pos hvd]
    refine ⟨by first | rfl | trivial, ?_, ?_, h3, rfl, h5⟩
    · simpa [create_new_trip] using h1
    · simp [create_new_trip, h2]
  · simp only [dive_trip_directory, hroot, if_neg hvd]
    exact ⟨by first | rfl | trivial, h1, h2, h3, h4, h5⟩

theorem walk_tree_directory_sim (root name : List Char)
    (db : List DiveRec) (tb : List Int) (eb : List ErrTag) (st st1 : GitState)
    (h : Sim db tb eb st st1) :
    (walk_tree_directory root name st).1 = (walk_tree_directory root name st1).1 ∧
    Sim db tb eb (walk_tree_directory root name st).2 (walk_tree_directory root name st1).2 := by
  simp only [walk_tree_directory]
  by_cases hd : countLeadingDigits name ≠ 4 ∧ countLeadingDigits name ≠ 2
  · simp only [if_pos hd]
    exact ⟨by first | rfl | trivial, h⟩
  by_cases hlen : countLeadingDigits name = name.length
  · simp only [if_neg hd, if_pos hlen]
    exact ⟨by first | rfl | trivial, h⟩
  by_cases hdash : name.getD (countLeadingDigits name) (Char.ofNat 0) ≠ '-'
  · simp only [if_neg hd, if_neg hlen, if_pos hdash]
    exact ⟨by first | rfl | trivial, h⟩
  by_cases hcol : name.getD (nonunique_length name - 3) (Char.ofNat 0) = ':'
  · simp only [if_neg hd, if_neg hlen, if_neg hdash, if_pos hcol]
    exact dive_directory_sim _ _ _ db tb eb _ _ h
  by_cases h2 : countLeadingDigits name ≠ 2
  · simp only [if_neg hd, if_neg hlen, if_neg hdash, if_neg hcol, if_pos h2]
    exact ⟨by first | rfl | trivial, h⟩
  · simp only [if_neg hd, if_neg hlen, if_neg hdash, if_neg hcol, if_neg h2]
    exact dive_trip_directory_sim _ _ db tb eb _ _ h

theorem walk_tree_file_sim (root name : List Char) (readable : Bool)
    (db : List DiveRec) (tb : List Int) (eb : List ErrTag) (st st1 : GitState)
    (h : Sim db tb eb st st1) :
    Sim db tb eb (walk_tree_file root name readable st).2
      (walk_tree_file root name readable st1).2 := by
  obtain ⟨h1, h2, h3, h4, h5⟩ := h
  have hsome : st.activeDive.isSome = st1.activeDive.isSome := by
    rw [h5]
    cases st1.activeDive <;> simp
  have htsome : st.activeTrip.isSome = st1.activeTrip.isSome := by
    rw [h4]
  simp only [walk_tree_file, hsome, htsome]
  by_cases hdc : st1.activeDive.isSome && strncmp0 (str "Divecomputer") name
  · simp only [hdc, reduceIte]
    cases readable <;>
      simp [parse_divecomputer_entry] <;>
      exact ⟨h1, h2, by simp [h3], h4, h5⟩
  by_cases hdv : st1.activeDive.isSome && strncmp0 (str "Dive") name
  · simp only [hdc, hdv, reduceIte, Bool.false_eq_true]
    cases readable
    · simp only [parse_dive_entry, Bool.false_eq_true, reduceIte]
      exact ⟨h1, h2, by simp [h3], h4, h5⟩
    · simp only [parse_dive_entry, reduceIte]
      rcases hsuf : name.drop 4 with _ | ⟨c0, srest⟩
      · exact ⟨h1, h2, h3, h4, h5⟩
      · rcases had : st1.activeDive with _ | i
        · rw [had] at h5
          simp only [h5, Option.map]
          exact ⟨h1, h2, h3, h4, by simp [h5, had]⟩
        · rw [had] at h5
          simp only [h5, Option.map]
          rcases hget : st1.dives[i]? with _ | d
          · have hget2 : st.dives[i + db.length]? = none := by
              rw [h1, Nat.add_comm, getElem?_append_right_add, hget]
            simp only [hget, hget2]
            exact ⟨h1, h2, h3, h4, by simp [h5, had]⟩
          · have hget2 : st.dives[i + db.length]? = some d := by
              rw [h1, Nat.add_comm, getElem?_append_right_add, hget]
            simp only [hget, hget2]
            refine ⟨?_, h2, h3, h4, by simp [h5, had]⟩
            rw [h1, Nat.add_comm, set_append_right]
  by_cases htr : st1.activeTrip.isSome && (name = str "00-Trip")
  · simp only [hdc, hdv, htr, reduceIte, Bool.false_eq_true]
    cases readable <;>
      simp [parse_trip_entry] <;>
      exact ⟨h1, h2, by simp [h3], h4, h5⟩
  · simp only [hdc, hdv, htr, reduceIte, Bool.false_eq_true]
    exact ⟨h1, h2, by simp [h3], h4, h5⟩

theorem walk_tree_cb_sim (root : List Char) (e : Entry)
    (db : List DiveRec) (tb : List Int) (eb : List ErrTag) (st st1 : GitState)
    (h : Sim db tb eb st st1) :
    (walk_tree_cb root e st).1 = (walk_tree_cb root e st1).1 ∧
    Sim db tb eb (walk_tree_cb root e st).2 (walk_tree_cb root e st1).2 := by
  cases e with
  | tree name children => exact walk_tree_directory_sim root name db tb eb st st1 h
  | blob name readable =>
    exact ⟨rfl, walk_tree_file_sim root name readable db tb eb st st1 h⟩

mutual
theorem walkEntry_sim (root : List Char) (e : Entry) (db : List DiveRec) (tb : List Int)
    (eb : List ErrTag) (st st1 : GitState) (h : Sim db tb eb st st1) :
    Sim db tb eb (walkEntry root e st) (walkEntry root e st1) := by
  cases e with
  | tree name children =>
    obtain ⟨hfst, hsim⟩ := walk_tree_cb_sim root (Entry.tree name children) db tb eb st st1 h
    simp only [walkEntry]
    rw [hfst]
    by_cases hret : (walk_tree_cb root (Entry.tree name children) st1).1 = GIT_WALK_OK
    · rw [if_pos hret, if_pos hret]
      exact walkEntryList_sim (root ++ name ++ ['/']) children db tb eb _ _ hsim
    · rw [if_neg hret, if_neg hret]
      exact hsim
  | blob name readable =>
    exact walk_tree_file_sim root name readable db tb eb st st1 h

theorem walkEntryList_sim (root : List Char) (es : EntryList) (db : List DiveRec)
    (tb : List Int) (eb : List ErrTag) (st st1 : GitState) (h : Sim db tb eb st st1) :
    Sim db tb eb (walkEntryList root es st) (walkEntryList root es st1) := by
  cases es with
  | nil => exact h
  | cons e rest =>
    exact walkEntryList_sim root rest db tb eb _ _ (walkEntry_sim root e db tb eb st st1 h)
end

/-- Counterexample to C9: on `cexTree`, the first walk (from the empty
state) produces a single record with no group membership, but the second
walk over the same tree from the same root, run with the tracker state
the first walk left behind, produces a record attached to the stale
group — the two walks do not produce equivalent sets. -/
theorem rewalk_cex :
    ((walkEntryList [] cexTree emptyState).dives.map fun d => d.trip.isSome) = [false] ∧
    (((walkEntryList [] cexTree (walkEntryList [] cexTree emptyState)).dives.drop 1).map
      fun d => d.trip.isSome) = [true] := by
  constructor
  · decide
  · decide

/-- C9 amended: re-walking an unchanged tree from the same root produces
an equivalent set of records and groups provided the two tracker slots are
cleared first: the second walk then appends dives and trips literally
equal (same timestamps, same ordinals, same group memberships) to those
the first walk produced from the empty state. -/
theorem rewalk_clean_tracker :
    ∀ (root : List Char) (tree : EntryList) (st : GitState),
      st.activeDive = none → st.activeTrip = none →
      (walkEntryList root tree st).dives =
        st.dives ++ (walkEntryList root tree emptyState).dives ∧
      (walkEntryList root tree st).trips =
        st.trips ++ (walkEntryList root tree emptyState).trips := by
  intro root tree st had hat
  have h : Sim st.dives st.trips st.errors st emptyState := by
    refine ⟨by simp [emptyState], by simp [emptyState], by simp [emptyState],
      by simp [emptyState, hat], by simp [emptyState, had]⟩
  obtain ⟨h1, h2, _, _, _⟩ :=
    walkEntryList_sim root tree st.dives st.trips st.errors st emptyState h
  exact ⟨h1, h2⟩

/-- Witness for C9 amended: the second walk over `cexTree`, after
clearing the tracker slots left by the first, appends exactly the dives
and trips of a first walk. -/
theorem rewalk_clean_tracker_witness :
    (walkEntryList [] cexTree
        { walkEntryList [] cexTree emptyState with
          activeDive := none, activeTrip := none }).dives =
      ({ walkEntryList [] cexTree emptyState with
          activeDive := none, activeTrip := none } : GitState).dives ++
        (walkEntryList [] cexTree emptyState).dives ∧
    (walkEntryList [] cexTree
        { walkEntryList [] cexTree emptyState with
          activeDive := none, activeTrip := none }).trips =
      ({ walkEntryList [] cexTree emptyState with
          activeDive := none, activeTrip := none } : GitState).trips ++
        (walkEntryList [] cexTree emptyState).trips :=
  rewalk_clean_tracker [] cexTree
    { walkEntryList [] cexTree emptyState with activeDive := none, activeTrip := none }
    rfl rfl

end LoadGit
